import Mathlib

/-!
Shallow embedding of `playsound.py` (yumimint/playsound): the platform-backend
dispatch and resource-lifecycle layer.  Native facilities (the MCI control
interface, NSSound, GStreamer, subprocesses, the wall clock) are modelled as
oracle parameters; the Python control flow is translated function by function.

Python strings are Lean `String`s except in the path/URI normalizer, where the
byte/codepoint structure matters and a Python `str` is a `List Nat` of Unicode
codepoints.  Wall-clock times and durations are `ℚ` (Python floats; only
additions, divisions and comparisons occur, so exact rationals are faithful
for every claim below).
-/

/-- The exception hierarchy of `playsound.py`.  `mciError` is a subclass of
`PlaysoundException`; `calledProcessError` is `subprocess.CalledProcessError`,
which is NOT a `PlaysoundException`. -/
inductive PyExc where
  | mciError (code : Nat) (command : String)
  | playsoundException (msg : String)
  | calledProcessError (returncode : Int)
deriving DecidableEq, Repr

/-- `isinstance(e, PlaysoundException)` -/
def isPlaysoundException : PyExc → Bool
  | .mciError _ _ => true
  | .playsoundException _ => true
  | .calledProcessError _ => false

/-- Oracle for `windll.winmm.mciSendStringW`: for a command string, the
returned error code (0 = success) and the numeric payload parsed from the
output buffer (`int(buf.value or 0)`). -/
abbrev MciOracle := String → Nat × Nat

/-- `mci_send_string` (src/playsound.py lines 36-45): issue the command; a
non-zero error code raises `mciError(code, command)`, otherwise the numeric
buffer payload is returned. -/
def mci_send_string (oracle : MciOracle) (command : String) : Except PyExc Nat :=
  if (oracle command).1 ≠ 0 then .error (.mciError (oracle command).1 command)
  else .ok (oracle command).2

/-- The command strings built by `PlaysoundWin` via `str.format`. -/
def openCmd (sound aliasS : String) : String := "open \"" ++ sound ++ "\" alias " ++ aliasS

def playWaitCmd (aliasS : String) : String := "play " ++ aliasS ++ " wait"

def closeCmd (aliasS : String) : String := "close " ++ aliasS

def setFmtCmd (aliasS : String) : String := "set " ++ aliasS ++ " time format milliseconds"

def statusLenCmd (aliasS : String) : String := "status " ++ aliasS ++ " length"

def playNoWaitCmd (aliasS : String) : String := "play " ++ aliasS

/-- Class state of `PlaysoundWin`: the tracking set `opend` of
`(expiry, aliasS)` pairs and the monotonic counter `alias_id`.  The Python
`set` is modelled as a duplicate-free list (`add` = append if absent,
`discard` = filter out); iteration order of the sweep is the list order. -/
structure WinState where
  opend : List (ℚ × String)
  alias_id : Nat
deriving DecidableEq, Repr

/-- `set.add` -/
def setAdd (s : List (ℚ × String)) (x : ℚ × String) : List (ℚ × String) :=
  if x ∈ s then s else s ++ [x]

namespace PlaysoundWin

/-- The loop body of `PlaysoundWin.cleanup`: close each entry of the
precomputed `expired` list and discard it from the tracking set.  An
`mciError` from a close command aborts the loop and propagates (there is no
try/except in the source).  Returns (result, final tracking set, trace of
issued commands). -/
def closeExpired (oracle : MciOracle) :
    List (ℚ × String) → List (ℚ × String) →
    Except PyExc Unit × List (ℚ × String) × List String
  | [], s => (.ok (), s, [])
  | e :: rest, s =>
    match mci_send_string oracle (closeCmd e.2) with
    | .error exc => (.error exc, s, [closeCmd e.2])
    | .ok _ =>
      let r := closeExpired oracle rest (s.filter (fun x => x ≠ e))
      (r.1, r.2.1, closeCmd e.2 :: r.2.2)

/-- `PlaysoundWin.cleanup` (src/playsound.py lines 75-86): collect the entries
whose expiry is strictly below `now`, then close and discard each. -/
def cleanup (oracle : MciOracle) (now : ℚ) (s : List (ℚ × String)) :
    Except PyExc Unit × List (ℚ × String) × List String :=
  closeExpired oracle (s.filter (fun e => decide (e.1 < now))) s

/-- `PlaysoundWin.play` (src/playsound.py lines 51-73).  `tPlay` is the value
`time()` returns at line 70 (non-blocking branch), `tClean` the value it
returns inside the trailing `cleanup` call.  Returns
(result, final class state, trace of issued MCI commands). -/
def play (oracle : MciOracle) (tPlay tClean : ℚ) (sound : String) (block : Bool)
    (st : WinState) : Except PyExc Unit × WinState × List String :=
  let aliasS := toString st.alias_id
  let st := { st with alias_id := st.alias_id + 1 }
  match mci_send_string oracle (openCmd sound aliasS) with
  | .error _ =>
    (.error (.playsoundException ("could not open " ++ sound)), st, [openCmd sound aliasS])
  | .ok _ =>
    if block then
      match mci_send_string oracle (playWaitCmd aliasS) with
      | .error e => (.error e, st, [openCmd sound aliasS, playWaitCmd aliasS])
      | .ok _ =>
        match mci_send_string oracle (closeCmd aliasS) with
        | .error e =>
          (.error e, st, [openCmd sound aliasS, playWaitCmd aliasS, closeCmd aliasS])
        | .ok _ =>
          let c := cleanup oracle tClean st.opend
          (c.1, { st with opend := c.2.1 },
            [openCmd sound aliasS, playWaitCmd aliasS, closeCmd aliasS] ++ c.2.2)
    else
      match mci_send_string oracle (setFmtCmd aliasS) with
      | .error e => (.error e, st, [openCmd sound aliasS, setFmtCmd aliasS])
      | .ok _ =>
        match mci_send_string oracle (statusLenCmd aliasS) with
        | .error e =>
          (.error e, st, [openCmd sound aliasS, setFmtCmd aliasS, statusLenCmd aliasS])
        | .ok n =>
          match mci_send_string oracle (playNoWaitCmd aliasS) with
          | .error e =>
            (.error e, st,
              [openCmd sound aliasS, setFmtCmd aliasS, statusLenCmd aliasS, playNoWaitCmd aliasS])
          | .ok _ =>
            let duration : ℚ := (n : ℚ) / 1000
            let expiry := tPlay + duration
            let st := { st with opend := setAdd st.opend (expiry, aliasS) }
            let c := cleanup oracle tClean st.opend
            (c.1, { st with opend := c.2.1 },
              [openCmd sound aliasS, setFmtCmd aliasS, statusLenCmd aliasS, playNoWaitCmd aliasS]
                ++ c.2.2)

end PlaysoundWin

/-- One call to `PlaysoundWin.play`: its MCI oracle, the two wall-clock
readings, the target and the blocking flag. -/
structure PlayCall where
  oracle : MciOracle
  tPlay : ℚ
  tClean : ℚ
  sound : String
  block : Bool

/-- A sequence of calls to `PlaysoundWin.play`, threading the class state;
exceptions are caught by the (modelled) caller, so the sequence continues. -/
def playSeq : List PlayCall → WinState → List (Except PyExc Unit) × WinState
  | [], st => ([], st)
  | c :: rest, st =>
    let r := PlaysoundWin.play c.oracle c.tPlay c.tClean c.sound c.block st
    let rs := playSeq rest r.2.1
    (r.1 :: rs.1, rs.2)

/-! ## Path/URI normalizer (`_handlePathOSX`)

A Python `str` is a sequence of Unicode codepoints, modelled as `List Nat`.
Relevant codepoints: `'/'` = 47, `':'` = 58, `' '` = 32, `'%'` = 37. -/

/-- Locate the first occurrence of `"://"` in a codepoint string, returning
the parts before and after it (`str.split('://', 1)`); `none` when absent
(`'://' not in sound`). -/
def findScheme : List Nat → Option (List Nat × List Nat)
  | [] => none
  | c :: rest =>
    if c = 58 ∧ rest.take 2 = [47, 47] then some ([], rest.drop 2)
    else (findScheme rest).map fun p => (c :: p.1, p.2)

/-- `str.replace(' ', '%20')` on codepoints. -/
def replaceSpace : List Nat → List Nat
  | [] => []
  | c :: rest => (if c = 32 then [37, 50, 48] else [c]) ++ replaceSpace rest

/-- UTF-8 encoding of one codepoint (`str.encode('utf-8')`, per scalar). -/
def utf8Bytes (n : Nat) : List Nat :=
  if n < 0x80 then [n]
  else if n < 0x800 then [0xC0 + n / 64, 0x80 + n % 64]
  else if n < 0x10000 then [0xE0 + n / 4096, 0x80 + n / 64 % 64, 0x80 + n % 64]
  else [0xF0 + n / 262144, 0x80 + n / 4096 % 64, 0x80 + n / 64 % 64, 0x80 + n % 64]

/-- `str.encode('utf-8')` on a codepoint string. -/
def utf8Encode (s : List Nat) : List Nat := s.flatMap utf8Bytes

/-- The characters `urllib.parse.quote` leaves unescaped with the default
`safe='/'`: letters, digits, `_.-~` and `/`. -/
def quoteSafe (b : Nat) : Bool :=
  (65 ≤ b && b ≤ 90) || (97 ≤ b && b ≤ 122) || (48 ≤ b && b ≤ 57) ||
    b == 95 || b == 46 || b == 45 || b == 126 || b == 47

/-- Uppercase hexadecimal digit character for `n < 16`. -/
def hexDigit (n : Nat) : Nat := if n < 10 then 48 + n else 55 + n

/-- `urllib.parse.quote(bytes, safe='/')`: percent-encode every unsafe byte
as `%XX` (uppercase hex); safe bytes pass through as their own character. -/
def pyQuote : List Nat → List Nat
  | [] => []
  | b :: rest =>
    (if quoteSafe b then [b] else [37, hexDigit (b / 16), hexDigit (b % 16)]) ++ pyQuote rest

/-- Hexadecimal digit test (both cases), as `urllib.parse.unquote` accepts. -/
def isHexDigit (c : Nat) : Bool :=
  (48 ≤ c && c ≤ 57) || (97 ≤ c && c ≤ 102) || (65 ≤ c && c ≤ 70)

/-- Value of a hexadecimal digit character. -/
def hexVal (c : Nat) : Nat :=
  if c ≤ 57 then c - 48 else if c ≤ 70 then c - 55 else c - 87

/-- Percent-decoding of an ASCII string to bytes (`urllib.parse.unquote`
semantics: a `%` followed by two hex digits decodes to that byte, any other
character stands for its own codepoint, malformed escapes pass through). -/
def percentDecode : List Nat → List Nat
  | [] => []
  | c :: h1 :: h2 :: rest =>
    if c = 37 && isHexDigit h1 && isHexDigit h2 then
      (16 * hexVal h1 + hexVal h2) :: percentDecode rest
    else c :: percentDecode (h1 :: h2 :: rest)
  | c :: rest => c :: percentDecode rest

/-- The codepoints of `"file://"`. -/
def fileSchemeCodes : List Nat := [102, 105, 108, 101, 58, 47, 47]

/-- `_handlePathOSX` (src/playsound.py lines 89-110) on codepoint strings,
with the current working directory (`os.getcwd()`) as an oracle parameter:
prefix non-URI inputs with `file://` (resolving relative paths against
`cwd`); if the result encodes to ASCII return it with spaces escaped,
otherwise UTF-8 percent-quote the part after the first `"://"`.  The `none`
branch of the final match is unreachable (the string always contains
`"://"` there; Python would raise `IndexError`). -/
def handlePathOSX (cwd sound : List Nat) : List Nat :=
  let s := if (findScheme sound).isSome then sound
           else fileSchemeCodes ++ (if sound.head? = some 47 then sound else cwd ++ 47 :: sound)
  if s.all (fun c => c < 128) then replaceSpace s
  else
    match findScheme s with
    | some (p1, p2) => p1 ++ [58, 47, 47] ++ replaceSpace (pyQuote (utf8Encode p2))
    | none => []

/-- The path against which `_handlePathOSX` builds the `file://` URI
(src/playsound.py lines 93-95): the input itself when absolute (leading
`'/'`), otherwise `getcwd() + '/' + sound`. -/
def resolvedPath (cwd sound : List Nat) : List Nat :=
  if sound.head? = some 47 then sound else cwd ++ 47 :: sound

/-- Rebuild a Lean `String` from codepoints (only used to embed codepoint
strings into exception messages). -/
def strOfCodes (l : List Nat) : String := ⟨l.map Char.ofNat⟩

/-! ## Native-object backend (`_playsoundOSX`) -/

/-- Observable actions of `_playsoundOSX` against the native API. -/
inductive OsxEvent where
  | loadAttempt (i : Nat)
  | soundPlay
  | sleepFor (d : ℚ)
deriving DecidableEq, Repr

/-- The `for i in range(5)` retry loop around
`NSSound.alloc().initWithContentsOfURL_byReference_`: `loadOk i` tells
whether attempt `i` produces a non-`None` object; the loop stops at the
first success (`break`).  Returns the successful index (if any) and the
trace of attempts. -/
def tryLoads (loadOk : Nat → Bool) : Nat → Nat → Option Nat × List OsxEvent
  | 0, _ => (none, [])
  | fuel + 1, i =>
    if loadOk i then (some i, [.loadAttempt i])
    else
      let r := tryLoads loadOk fuel (i + 1)
      (r.1, .loadAttempt i :: r.2)

/-- `_playsoundOSX` (src/playsound.py lines 113-156).  `urlOk` models the
truthiness of `NSURL.URLWithString_`, `loadOk` the per-attempt success of the
native loader, `duration` the value `nssound.duration()` reports. -/
def playsoundOSX (cwd sound : List Nat) (urlOk : Bool) (loadOk : Nat → Bool)
    (duration : ℚ) (block : Bool) : Except PyExc Unit × List OsxEvent :=
  let s := handlePathOSX cwd sound
  if urlOk = false then
    (.error (.playsoundException ("Cannot find a sound with filename: " ++ strOfCodes s)), [])
  else
    match tryLoads loadOk 5 0 with
    | (none, tr) =>
      (.error (.playsoundException
        ("Could not load sound with filename, although URL was good... " ++ strOfCodes s)), tr)
    | (some _, tr) =>
      if block then (.ok (), tr ++ [.soundPlay, .sleepFor duration])
      else (.ok (), tr ++ [.soundPlay])

/-! ## Streaming-pipeline backend (`_playsoundNix`) -/

/-- `Gst.StateChangeReturn`. -/
inductive Scr where
  | ASYNC
  | SUCCESS
  | FAILURE
  | NO_PREROLL
deriving DecidableEq, Repr

/-- `repr(set_result)` as interpolated into the exception message. -/
def reprScr : Scr → String
  | .ASYNC => "<enum GST_STATE_CHANGE_ASYNC of type Gst.StateChangeReturn>"
  | .SUCCESS => "<enum GST_STATE_CHANGE_SUCCESS of type Gst.StateChangeReturn>"
  | .FAILURE => "<enum GST_STATE_CHANGE_FAILURE of type Gst.StateChangeReturn>"
  | .NO_PREROLL => "<enum GST_STATE_CHANGE_NO_PREROLL of type Gst.StateChangeReturn>"

/-- Observable actions of `_playsoundNix` against GStreamer. -/
inductive NixEvent where
  | gstInit
  | makePlaybin
  | setUri (u : String)
  | setStatePlaying
  | busPollEos
  | setStateNull
deriving DecidableEq, Repr

/-- `_playsoundNix` (src/playsound.py lines 159-205).  `abspathF`, `existsF`
and `pathname2urlF` are the `os.path.abspath`, `os.path.exists` and
`urllib.request.pathname2url` oracles; `setStateResult` is what
`playbin.set_state(Gst.State.PLAYING)` returns.  Returns (result, trace of
GStreamer actions).  Note `Gst.init` and the `playbin` element construction
happen before the local-file existence check. -/
def playsoundNix (abspathF : String → String) (existsF : String → Bool)
    (pathname2urlF : String → String) (setStateResult : Scr)
    (sound : String) (block : Bool) : Except PyExc Unit × List NixEvent :=
  let ev0 : List NixEvent := [.gstInit, .makePlaybin]
  let uriR : Except PyExc String :=
    if sound.startsWith "http://" || sound.startsWith "https://" then .ok sound
    else
      let path := abspathF sound
      if existsF path then .ok ("file://" ++ pathname2urlF path)
      else .error (.playsoundException ("File not found: " ++ path))
  match uriR with
  | .error e => (.error e, ev0)
  | .ok uri =>
    let ev1 := ev0 ++ [.setUri uri, .setStatePlaying]
    if setStateResult ≠ .ASYNC then
      (.error (.playsoundException ("playbin.set_state returned " ++ reprScr setStateResult)),
        ev1)
    else if block then (.ok (), ev1 ++ [.busPollEos, .setStateNull])
    else (.ok (), ev1)

/-! ## Process-delegation fallback (`_playsoundAnotherPython`) -/

/-- Observable actions of `_playsoundAnotherPython`. -/
inductive DelegEvent where
  | spawnChild (argv : List String)
deriving DecidableEq, Repr

/-- `_handlePathOSX` lifted back to Lean `String`s (used for the macOS
delegation argument). -/
def handlePathOSXStr (cwd s : String) : String :=
  strOfCodes (handlePathOSX (cwd.data.map Char.toNat) (s.data.map Char.toNat))

/-- `_playsoundAnotherPython` (src/playsound.py lines 208-243).  `existsF`
and `abspathF` are filesystem oracles, `playsoundPath` is
`abspath(getsourcefile(lambda: 0))`, and `childExit` the delegated child
process's exit status.  The worker thread always spawns the child
(`t.start()`); `check_call` raises `CalledProcessError` on a non-zero exit,
captured by the `PropogatingThread` and re-raised by `join` only when
`block` is true. -/
def playsoundAnotherPython (otherPython : String) (cwd sound : String)
    (block : Bool) (macOS : Bool) (existsF : String → Bool) (abspathF : String → String)
    (playsoundPath : String) (childExit : Int) : Except PyExc Unit × List DelegEvent :=
  if existsF (abspathF sound) = false then
    (.error (.playsoundException ("Cannot find a sound with filename: " ++ sound)), [])
  else
    let arg := if macOS then handlePathOSXStr cwd sound else sound
    let ev : List DelegEvent := [.spawnChild [otherPython, playsoundPath, arg]]
    if block then
      if childExit ≠ 0 then (.error (.calledProcessError childExit), ev)
      else (.ok (), ev)
    else (.ok (), ev)

/-! ## Lemmas about the control-string backend -/

theorem mci_send_string_ok (oracle : MciOracle) (cmd : String) (h : (oracle cmd).1 = 0) :
    mci_send_string oracle cmd = .ok (oracle cmd).2 := by
  simp [mci_send_string, h]

theorem mci_send_string_err (oracle : MciOracle) (cmd : String) (h : (oracle cmd).1 ≠ 0) :
    mci_send_string oracle cmd = .error (.mciError (oracle cmd).1 cmd) := by
  simp [mci_send_string, h]

theorem closeExpired_ok (oracle : MciOracle) :
    ∀ (L s : List (ℚ × String)), (∀ e ∈ L, (oracle (closeCmd e.2)).1 = 0) →
      PlaysoundWin.closeExpired oracle L s =
        (.ok (), s.filter (fun x => decide (x ∉ L)), L.map fun e => closeCmd e.2)
  | [], s, _ => by simp [PlaysoundWin.closeExpired]
  | e :: rest, s, h => by
    have he := h e (List.mem_cons_self e rest)
    rw [PlaysoundWin.closeExpired, mci_send_string_ok _ _ he,
      closeExpired_ok oracle rest _ (fun x hx => h x (List.mem_cons_of_mem _ hx))]
    simp only [List.map_cons, Prod.mk.injEq, true_and, List.filter_filter]
    refine ⟨?_, trivial⟩
    apply List.filter_congr
    intro x _
    simp [List.mem_cons, not_or, Bool.and_comm]

theorem closeExpired_fail (oracle : MciOracle) :
    ∀ (L1 : List (ℚ × String)) (e : ℚ × String) (L2 s : List (ℚ × String)),
      (∀ x ∈ L1, (oracle (closeCmd x.2)).1 = 0) →
      (oracle (closeCmd e.2)).1 ≠ 0 →
      PlaysoundWin.closeExpired oracle (L1 ++ e :: L2) s =
        (.error (.mciError (oracle (closeCmd e.2)).1 (closeCmd e.2)),
          s.filter (fun x => decide (x ∉ L1)),
          L1.map (fun x => closeCmd x.2) ++ [closeCmd e.2])
  | [], e, L2, s, _, hf => by
    rw [List.nil_append, PlaysoundWin.closeExpired, mci_send_string_err _ _ hf]
    simp
  | x :: L1, e, L2, s, h, hf => by
    rw [List.cons_append, PlaysoundWin.closeExpired,
      mci_send_string_ok _ _ (h x (List.mem_cons_self x L1)),
      closeExpired_fail oracle L1 e L2 (s.filter (fun y => y ≠ x))
        (fun y hy => h y (List.mem_cons_of_mem _ hy)) hf]
    simp only [List.map_cons, List.cons_append, Prod.mk.injEq, true_and,
      List.filter_filter]
    refine ⟨?_, trivial⟩
    apply List.filter_congr
    intro y _
    simp [List.mem_cons, not_or, Bool.and_comm]

theorem cleanup_ok (oracle : MciOracle) (now : ℚ) (s : List (ℚ × String))
    (h : ∀ e ∈ s, e.1 < now → (oracle (closeCmd e.2)).1 = 0) :
    PlaysoundWin.cleanup oracle now s =
      (.ok (), s.filter (fun e => decide (¬ e.1 < now)),
        (s.filter (fun e => decide (e.1 < now))).map fun e => closeCmd e.2) := by
  unfold PlaysoundWin.cleanup
  rw [closeExpired_ok]
  · congr 2
    rw [List.filter_congr]
    intro x hx
    simp [List.mem_filter, hx]
  · intro e he
    simp only [List.mem_filter, decide_eq_true_eq] at he
    exact h e he.1 he.2

theorem closeExpired_subset (oracle : MciOracle) :
    ∀ (L s : List (ℚ × String)), (PlaysoundWin.closeExpired oracle L s).2.1 ⊆ s
  | [], s => by simp [PlaysoundWin.closeExpired]
  | e :: rest, s => by
    unfold PlaysoundWin.closeExpired
    cases hm : mci_send_string oracle (closeCmd e.2) with
    | error exc => simp
    | ok _ =>
      intro x hx
      simp only at hx
      exact List.mem_of_mem_filter
        (closeExpired_subset oracle rest (s.filter (fun y => decide (y ≠ e))) hx)

theorem cleanup_subset (oracle : MciOracle) (now : ℚ) (s : List (ℚ × String)) :
    (PlaysoundWin.cleanup oracle now s).2.1 ⊆ s :=
  closeExpired_subset oracle _ s

theorem play_alias_id (oracle : MciOracle) (t1 t2 : ℚ) (sound : String) (block : Bool)
    (st : WinState) :
    ((PlaysoundWin.play oracle t1 t2 sound block st).2.1).alias_id = st.alias_id + 1 := by
  simp only [PlaysoundWin.play]
  cases ho : mci_send_string oracle (openCmd sound (toString st.alias_id)) with
  | error a => rfl
  | ok a =>
    cases block with
    | true =>
      cases hp : mci_send_string oracle (playWaitCmd (toString st.alias_id)) with
      | error e => rfl
      | ok b =>
        cases hc : mci_send_string oracle (closeCmd (toString st.alias_id)) with
        | error e => rfl
        | ok c => rfl
    | false =>
      cases hs : mci_send_string oracle (setFmtCmd (toString st.alias_id)) with
      | error e => rfl
      | ok b =>
        cases hl : mci_send_string oracle (statusLenCmd (toString st.alias_id)) with
        | error e => rfl
        | ok n =>
          cases hp : mci_send_string oracle (playNoWaitCmd (toString st.alias_id)) with
          | error e => rfl
          | ok c => rfl

theorem playSeq_alias_le : ∀ (calls : List PlayCall) (st : WinState),
    st.alias_id ≤ ((playSeq calls st).2).alias_id
  | [], _ => le_refl _
  | c :: rest, st => by
    have h1 := play_alias_id c.oracle c.tPlay c.tClean c.sound c.block st
    have h2 := playSeq_alias_le rest
      (PlaysoundWin.play c.oracle c.tPlay c.tClean c.sound c.block st).2.1
    simp only [playSeq]
    omega

theorem play_blocking_eq (oracle : MciOracle) (tP tC : ℚ) (sound : String) (st : WinState)
    (ho : (oracle (openCmd sound (toString st.alias_id))).1 = 0)
    (hp : (oracle (playWaitCmd (toString st.alias_id))).1 = 0)
    (hc : (oracle (closeCmd (toString st.alias_id))).1 = 0)
    (hempty : st.opend = []) :
    PlaysoundWin.play oracle tP tC sound true st =
      (.ok (), ⟨[], st.alias_id + 1⟩,
        [openCmd sound (toString st.alias_id), playWaitCmd (toString st.alias_id),
          closeCmd (toString st.alias_id)]) := by
  simp only [PlaysoundWin.play, mci_send_string_ok _ _ ho, mci_send_string_ok _ _ hp,
    mci_send_string_ok _ _ hc, if_true]
  rw [hempty]
  simp [PlaysoundWin.cleanup, PlaysoundWin.closeExpired]

theorem play_nonblocking_keep (oracle : MciOracle) (tP tC : ℚ) (sound : String)
    (st : WinState) (L : Nat)
    (ho : (oracle (openCmd sound (toString st.alias_id))).1 = 0)
    (hs : (oracle (setFmtCmd (toString st.alias_id))).1 = 0)
    (hl : oracle (statusLenCmd (toString st.alias_id)) = (0, L))
    (hp : (oracle (playNoWaitCmd (toString st.alias_id))).1 = 0)
    (hempty : st.opend = [])
    (hexp : ¬ tP + (L : ℚ) / 1000 < tC) :
    PlaysoundWin.play oracle tP tC sound false st =
      (.ok (), ⟨[(tP + (L : ℚ) / 1000, toString st.alias_id)], st.alias_id + 1⟩,
        [openCmd sound (toString st.alias_id), setFmtCmd (toString st.alias_id),
          statusLenCmd (toString st.alias_id), playNoWaitCmd (toString st.alias_id)]) := by
  simp only [PlaysoundWin.play, mci_send_string_ok _ _ ho, mci_send_string_ok _ _ hs,
    mci_send_string_ok _ _ (show (oracle (statusLenCmd (toString st.alias_id))).1 = 0 by
      rw [hl]), mci_send_string_ok _ _ hp, Bool.false_eq_true, if_false, hl]
  rw [hempty]
  simp [PlaysoundWin.cleanup, PlaysoundWin.closeExpired, setAdd, hexp]

theorem play_nonblocking_expired (oracle : MciOracle) (tP tC : ℚ) (sound : String)
    (st : WinState) (L : Nat)
    (ho : (oracle (openCmd sound (toString st.alias_id))).1 = 0)
    (hs : (oracle (setFmtCmd (toString st.alias_id))).1 = 0)
    (hl : oracle (statusLenCmd (toString st.alias_id)) = (0, L))
    (hp : (oracle (playNoWaitCmd (toString st.alias_id))).1 = 0)
    (hc : (oracle (closeCmd (toString st.alias_id))).1 = 0)
    (hempty : st.opend = [])
    (hexp : tP + (L : ℚ) / 1000 < tC) :
    PlaysoundWin.play oracle tP tC sound false st =
      (.ok (), ⟨[], st.alias_id + 1⟩,
        [openCmd sound (toString st.alias_id), setFmtCmd (toString st.alias_id),
          statusLenCmd (toString st.alias_id), playNoWaitCmd (toString st.alias_id),
          closeCmd (toString st.alias_id)]) := by
  simp only [PlaysoundWin.play, mci_send_string_ok _ _ ho, mci_send_string_ok _ _ hs,
    mci_send_string_ok _ _ (show (oracle (statusLenCmd (toString st.alias_id))).1 = 0 by
      rw [hl]), mci_send_string_ok _ _ hp, Bool.false_eq_true, if_false, hl]
  rw [hempty]
  simp [PlaysoundWin.cleanup, PlaysoundWin.closeExpired, setAdd, hexp,
    mci_send_string_ok _ _ hc]

theorem play_open_fail (oracle : MciOracle) (tP tC : ℚ) (sound : String) (block : Bool)
    (st : WinState)
    (h : (oracle (openCmd sound (toString st.alias_id))).1 ≠ 0) :
    PlaysoundWin.play oracle tP tC sound block st =
      (.error (.playsoundException ("could not open " ++ sound)),
        ⟨st.opend, st.alias_id + 1⟩, [openCmd sound (toString st.alias_id)]) := by
  simp only [PlaysoundWin.play, mci_send_string_err _ _ h]

/-- C1 (counterexample): sweeping the tracking set `{(0, "0")}` at `now = 1`
with a native facility whose close command fails (error code 275) propagates
the `mciError` to the caller and leaves the expired session tracked, contrary
to the claim that close failures are swallowed and the session removed. -/
theorem c1_counterexample :
    PlaysoundWin.cleanup (fun _ => (275, 0)) 1 [((0 : ℚ), "0")] =
      (.error (.mciError 275 "close 0"), [((0 : ℚ), "0")], ["close 0"]) := by
  rfl

/-- C1 (amended): at time `now` the sweep issues a close command for every
tracked session whose expiry is strictly below `now`, in iteration order, and
removes each successfully closed one; when each such close succeeds the sweep
completes with exactly the expired sessions removed, but when the close of
any expired session fails (after the closes before it in the sweep order
succeeded), the `mciError` propagates to the caller and the sweep aborts:
the sessions closed before the failure are removed, while the failed session
and every expired session after it remain tracked. -/
theorem c1_amended_sweep (oracle : MciOracle) (now : ℚ) (s : List (ℚ × String)) :
    ((∀ e ∈ s, e.1 < now → (oracle (closeCmd e.2)).1 = 0) →
      PlaysoundWin.cleanup oracle now s =
        (.ok (), s.filter (fun e => decide (¬ e.1 < now)),
          (s.filter (fun e => decide (e.1 < now))).map fun e => closeCmd e.2)) ∧
    (∀ L1 e L2, s.Nodup →
      s.filter (fun x => decide (x.1 < now)) = L1 ++ e :: L2 →
      (∀ x ∈ L1, (oracle (closeCmd x.2)).1 = 0) →
      (oracle (closeCmd e.2)).1 ≠ 0 →
      PlaysoundWin.cleanup oracle now s =
        (.error (.mciError (oracle (closeCmd e.2)).1 (closeCmd e.2)),
          s.filter (fun x => decide (x ∉ L1)),
          L1.map (fun x => closeCmd x.2) ++ [closeCmd e.2]) ∧
      e ∈ (PlaysoundWin.cleanup oracle now s).2.1 ∧
      ∀ x ∈ L2, x ∈ (PlaysoundWin.cleanup oracle now s).2.1) := by
  constructor
  · exact cleanup_ok oracle now s
  · intro L1 e L2 hnd hf hok hfail
    have heq : PlaysoundWin.cleanup oracle now s =
        (.error (.mciError (oracle (closeCmd e.2)).1 (closeCmd e.2)),
          s.filter (fun x => decide (x ∉ L1)),
          L1.map (fun x => closeCmd x.2) ++ [closeCmd e.2]) := by
      unfold PlaysoundWin.cleanup
      rw [hf]
      exact closeExpired_fail oracle L1 e L2 s hok hfail
    have hndf : (L1 ++ e :: L2).Nodup := hf ▸ hnd.filter _
    rw [List.nodup_append] at hndf
    obtain ⟨-, -, hdisj⟩ := hndf
    have hmem : ∀ y ∈ e :: L2, y ∈ (PlaysoundWin.cleanup oracle now s).2.1 := by
      intro y hy
      rw [heq]
      simp only [List.mem_filter, decide_eq_true_eq]
      refine ⟨?_, fun hyL1 => hdisj hyL1 hy⟩
      have hys : y ∈ s.filter (fun x => decide (x.1 < now)) := by
        rw [hf]
        exact List.mem_append_right _ hy
      exact List.mem_of_mem_filter hys
    exact ⟨heq, hmem e (List.mem_cons_self e L2),
      fun x hx => hmem x (List.mem_cons_of_mem _ hx)⟩

/-- C1 (witness for the amended theorem): a fully successful sweep, and a
sweep over three expired sessions whose second close fails — the first is
removed, while the failed second and the pending third remain tracked. -/
theorem c1_amended_sweep_witness :
    PlaysoundWin.cleanup (fun _ => (0, 0)) 5 [((0 : ℚ), "0"), ((7 : ℚ), "1")] =
      (.ok (), [((7 : ℚ), "1")], ["close 0"]) ∧
    PlaysoundWin.cleanup (fun cmd => if cmd = "close 1" then (275, 0) else (0, 0)) 1
        [((0 : ℚ), "0"), ((0 : ℚ), "1"), ((0 : ℚ), "2")] =
      (.error (.mciError 275 "close 1"), [((0 : ℚ), "1"), ((0 : ℚ), "2")],
        ["close 0", "close 1"]) ∧
    ((0 : ℚ), "2") ∈ (PlaysoundWin.cleanup
      (fun cmd => if cmd = "close 1" then (275, 0) else (0, 0)) 1
      [((0 : ℚ), "0"), ((0 : ℚ), "1"), ((0 : ℚ), "2")]).2.1 := by
  have h := (c1_amended_sweep (fun cmd => if cmd = "close 1" then (275, 0) else (0, 0)) 1
      [((0 : ℚ), "0"), ((0 : ℚ), "1"), ((0 : ℚ), "2")]).2
    [((0 : ℚ), "0")] ((0 : ℚ), "1") [((0 : ℚ), "2")]
    (by decide) (by rfl) (by decide) (by decide)
  refine ⟨?_, ?_, h.2.2 ((0 : ℚ), "2") (List.mem_singleton.mpr rfl)⟩
  · rw [(c1_amended_sweep (fun _ => (0, 0)) 5 [((0 : ℚ), "0"), ((7 : ℚ), "1")]).1
      (fun _ _ _ => rfl)]
    rfl
  · rw [h.1]
    rfl

/-- C2: after any sequence of non-blocking `PlaysoundWin.play` calls that all
succeed, a cleanup sweep at a time strictly above every tracked expiry, with
all native close commands succeeding, leaves the tracking set empty. -/
theorem c2_sweep_empties (calls : List PlayCall) (st0 : WinState) (oracle : MciOracle)
    (now : ℚ)
    (_hnb : ∀ c ∈ calls, c.block = false)
    (_hok : ∀ r ∈ (playSeq calls st0).1, r = .ok ())
    (hexp : ∀ e ∈ ((playSeq calls st0).2).opend, e.1 < now)
    (hcl : ∀ e ∈ ((playSeq calls st0).2).opend, (oracle (closeCmd e.2)).1 = 0) :
    (PlaysoundWin.cleanup oracle now ((playSeq calls st0).2).opend).2.1 = [] := by
  rw [cleanup_ok oracle now _ (fun e he _ => hcl e he)]
  simp only
  rw [List.filter_eq_nil_iff]
  intro e he
  simp [hexp e he]

/-- C2 (witness): one non-blocking call (duration 2000 ms at time 0), swept
at time 5. -/
theorem c2_sweep_empties_witness :
    (PlaysoundWin.cleanup (fun _ => (0, 0)) 5
      ((playSeq [⟨fun _ => (0, 2000), 0, 0, "s.mp3", false⟩] ⟨[], 0⟩).2).opend).2.1 = [] := by
  have hplay := play_nonblocking_keep (fun _ => (0, 2000)) 0 0 "s.mp3" ⟨[], 0⟩ 2000
    rfl rfl rfl rfl rfl (by norm_num)
  refine c2_sweep_empties _ _ _ _ ?_ ?_ ?_ ?_
  · intro c hc
    rw [List.mem_singleton] at hc
    rw [hc]
  · intro r hr
    simp only [playSeq, hplay] at hr
    rw [List.mem_singleton] at hr
    exact hr
  · intro e he
    simp only [playSeq, hplay] at he
    rw [List.mem_singleton] at he
    rw [he]
    norm_num
  · intro e _
    rfl

/-- C5: a successful blocking `PlaysoundWin.play` issues exactly open, then
play-with-wait, then close for the allocated alias, in that order, returns
success only once the close command has succeeded (a failing close fails the
call with its `mciError`), and never inserts a session into the tracking set
(for any oracle and prior state, the final tracking set is contained in the
initial one). -/
theorem c5_blocking_play (oracle : MciOracle) (tP tC : ℚ) (sound : String) (st : WinState)
    (ho : (oracle (openCmd sound (toString st.alias_id))).1 = 0)
    (hp : (oracle (playWaitCmd (toString st.alias_id))).1 = 0)
    (hc : (oracle (closeCmd (toString st.alias_id))).1 = 0)
    (hempty : st.opend = []) :
    PlaysoundWin.play oracle tP tC sound true st =
      (.ok (), ⟨[], st.alias_id + 1⟩,
        [openCmd sound (toString st.alias_id), playWaitCmd (toString st.alias_id),
          closeCmd (toString st.alias_id)]) ∧
    (∀ oracle2 : MciOracle, (oracle2 (openCmd sound (toString st.alias_id))).1 = 0 →
      (oracle2 (playWaitCmd (toString st.alias_id))).1 = 0 →
      (oracle2 (closeCmd (toString st.alias_id))).1 ≠ 0 →
      (PlaysoundWin.play oracle2 tP tC sound true st).1 =
        .error (.mciError (oracle2 (closeCmd (toString st.alias_id))).1
          (closeCmd (toString st.alias_id)))) ∧
    (∀ (oracle3 : MciOracle) (st' : WinState),
      ((PlaysoundWin.play oracle3 tP tC sound true st').2.1).opend ⊆ st'.opend) := by
  refine ⟨play_blocking_eq oracle tP tC sound st ho hp hc hempty, ?_, ?_⟩
  · intro o2 ho2 hp2 hc2
    simp only [PlaysoundWin.play, mci_send_string_ok _ _ ho2, mci_send_string_ok _ _ hp2,
      mci_send_string_err _ _ hc2, if_true]
  · intro o3 st'
    simp only [PlaysoundWin.play]
    cases hoo : mci_send_string o3 (openCmd sound (toString st'.alias_id)) with
    | error a => exact fun x hx => hx
    | ok a =>
      cases hpp : mci_send_string o3 (playWaitCmd (toString st'.alias_id)) with
      | error e => exact fun x hx => hx
      | ok b =>
        cases hcc : mci_send_string o3 (closeCmd (toString st'.alias_id)) with
        | error e => exact fun x hx => hx
        | ok c => exact cleanup_subset o3 tC st'.opend

/-- C5 (witness). -/
theorem c5_blocking_play_witness :
    PlaysoundWin.play (fun _ => (0, 0)) 0 0 "music.mp3" true ⟨[], 0⟩ =
      (.ok (), ⟨[], 1⟩, [openCmd "music.mp3" "0", playWaitCmd "0", closeCmd "0"]) := by
  have h := (c5_blocking_play (fun _ => (0, 0)) 0 0 "music.mp3" ⟨[], 0⟩ rfl rfl rfl rfl).1
  simpa using h

/-- C6 (counterexample): a non-blocking call on zero-length media (`status
length` reports 0 ms) at time 0, whose end-of-call sweep runs at time 1,
succeeds but issues a close command for its own alias within the call and
leaves the session untracked — the handle is not left open as claimed. -/
theorem c6_counterexample :
    PlaysoundWin.play (fun _ => (0, 0)) 0 1 "s.mp3" false ⟨[], 0⟩ =
      (.ok (), ⟨[], 1⟩,
        [openCmd "s.mp3" "0", setFmtCmd "0", statusLenCmd "0", playNoWaitCmd "0",
          closeCmd "0"]) ∧
    closeCmd "0" ∈ (PlaysoundWin.play (fun _ => (0, 0)) 0 1 "s.mp3" false ⟨[], 0⟩).2.2 := by
  have h := play_nonblocking_expired (fun _ => (0, 0)) 0 1 "s.mp3" ⟨[], 0⟩ 0
    rfl rfl rfl rfl rfl rfl (by norm_num)
  have e0 : toString (0 : Nat) = "0" := rfl
  constructor
  · simpa using h
  · rw [h]
    simp [e0]

/-- C6 (amended): a successful non-blocking call queries the duration in
milliseconds via the status-length command, converts it to seconds, issues a
non-waiting play, computes `expiry = now + duration` and inserts
`(expiry, alias)` into the tracking set, and issues no close for that alias —
provided the end-of-call sweep does not run at a time strictly past the
computed expiry (otherwise the sweep closes the just-inserted session within
the same call). -/
theorem c6_amended_nonblocking (oracle : MciOracle) (tP tC : ℚ) (sound : String)
    (st : WinState) (L : Nat)
    (ho : (oracle (openCmd sound (toString st.alias_id))).1 = 0)
    (hs : (oracle (setFmtCmd (toString st.alias_id))).1 = 0)
    (hl : oracle (statusLenCmd (toString st.alias_id)) = (0, L))
    (hp : (oracle (playNoWaitCmd (toString st.alias_id))).1 = 0)
    (hempty : st.opend = [])
    (hexp : ¬ tP + (L : ℚ) / 1000 < tC) :
    PlaysoundWin.play oracle tP tC sound false st =
      (.ok (), ⟨[(tP + (L : ℚ) / 1000, toString st.alias_id)], st.alias_id + 1⟩,
        [openCmd sound (toString st.alias_id), setFmtCmd (toString st.alias_id),
          statusLenCmd (toString st.alias_id), playNoWaitCmd (toString st.alias_id)]) :=
  play_nonblocking_keep oracle tP tC sound st L ho hs hl hp hempty hexp

/-- C6 (witness for the amended theorem): 2000 ms media opened at time 0,
sweep at time 0. -/
theorem c6_amended_nonblocking_witness :
    PlaysoundWin.play (fun _ => (0, 2000)) 0 0 "s.mp3" false ⟨[], 0⟩ =
      (.ok (), ⟨[((2 : ℚ), "0")], 1⟩,
        [openCmd "s.mp3" "0", setFmtCmd "0", statusLenCmd "0", playNoWaitCmd "0"]) := by
  have h := c6_amended_nonblocking (fun _ => (0, 2000)) 0 0 "s.mp3" ⟨[], 0⟩ 2000
    rfl rfl rfl rfl rfl (by norm_num)
  rw [h]
  norm_num
  exact ⟨rfl, rfl, rfl, rfl, rfl⟩

/-- C7: alias allocation is monotonic and collision-free — the counter value
allocated by any later `PlaysoundWin.play` call (after any number of
intervening calls, whatever their outcomes) is strictly greater than the
counter value allocated by an earlier call. -/
theorem c7_alias_monotone (c : PlayCall) (st : WinState) (mid : List PlayCall) :
    st.alias_id <
      ((playSeq mid
        ((PlaysoundWin.play c.oracle c.tPlay c.tClean c.sound c.block st).2.1)).2).alias_id := by
  have h1 := play_alias_id c.oracle c.tPlay c.tClean c.sound c.block st
  have h2 := playSeq_alias_le mid
    (PlaysoundWin.play c.oracle c.tPlay c.tClean c.sound c.block st).2.1
  omega

/-- C10: when the open command fails, `PlaysoundWin.play` raises the
could-not-open `PlaysoundException`, with the tracking set unchanged, no
cleanup sweep performed (the trace holds the open command only), and the
alias counter nevertheless advanced by one — a value no later call ever
allocates again. -/
theorem c10_open_failure_frame (oracle : MciOracle) (tP tC : ℚ) (sound : String)
    (block : Bool) (st : WinState)
    (h : (oracle (openCmd sound (toString st.alias_id))).1 ≠ 0) :
    PlaysoundWin.play oracle tP tC sound block st =
      (.error (.playsoundException ("could not open " ++ sound)),
        ⟨st.opend, st.alias_id + 1⟩, [openCmd sound (toString st.alias_id)]) ∧
    ∀ calls : List PlayCall,
      st.alias_id < ((playSeq calls ⟨st.opend, st.alias_id + 1⟩).2).alias_id := by
  refine ⟨play_open_fail oracle tP tC sound block st h, ?_⟩
  intro calls
  have h2 : st.alias_id + 1 ≤ ((playSeq calls ⟨st.opend, st.alias_id + 1⟩).2).alias_id :=
    playSeq_alias_le calls ⟨st.opend, st.alias_id + 1⟩
  omega

/-- C10 (witness). -/
theorem c10_open_failure_frame_witness :
    PlaysoundWin.play (fun _ => (275, 0)) 0 0 "x.mp3" true ⟨[], 0⟩ =
      (.error (.playsoundException "could not open x.mp3"), ⟨[], 1⟩,
        [openCmd "x.mp3" "0"]) ∧
    0 < ((playSeq [] (⟨[], 1⟩ : WinState)).2).alias_id := by
  have h := c10_open_failure_frame (fun _ => (275, 0)) 0 0 "x.mp3" true ⟨[], 0⟩ (by decide)
  exact ⟨by simpa using h.1, h.2 []⟩

/-! ## Lemmas about the native-object backend's retry loop -/

/-- Is an event a load attempt? -/
def isLoadAttempt : OsxEvent → Bool
  | .loadAttempt _ => true
  | _ => false

theorem tryLoads_none_iff (loadOk : Nat → Bool) :
    ∀ (fuel i : Nat), (tryLoads loadOk fuel i).1 = none ↔ ∀ j < fuel, loadOk (i + j) = false
  | 0, i => by simp [tryLoads]
  | fuel + 1, i => by
    by_cases h : loadOk i = true
    · simp only [tryLoads, h, if_true]
      constructor
      · intro hn
        exact absurd hn (by simp)
      · intro hall
        have := hall 0 (by omega)
        simp [h] at this
    · rw [Bool.not_eq_true] at h
      simp only [tryLoads, h, Bool.false_eq_true, if_false]
      rw [show ((tryLoads loadOk fuel (i + 1)).1,
          OsxEvent.loadAttempt i :: (tryLoads loadOk fuel (i + 1)).2).1 =
          (tryLoads loadOk fuel (i + 1)).1 from rfl]
      rw [tryLoads_none_iff loadOk fuel (i + 1)]
      constructor
      · intro hall j hj
        cases j with
        | zero => simpa using h
        | succ j' =>
          have := hall j' (by omega)
          rw [show i + (j' + 1) = i + 1 + j' by omega]
          exact this
      · intro hall j hj
        have := hall (j + 1) (by omega)
        rw [show i + 1 + j = i + (j + 1) by omega]
        exact this

theorem tryLoads_length (loadOk : Nat → Bool) :
    ∀ (fuel i : Nat), (tryLoads loadOk fuel i).2.length ≤ fuel
  | 0, _ => by simp [tryLoads]
  | fuel + 1, i => by
    by_cases h : loadOk i = true
    · simp [tryLoads, h]
    · rw [Bool.not_eq_true] at h
      have := tryLoads_length loadOk fuel (i + 1)
      simp only [tryLoads, h, if_false, Bool.false_eq_true, List.length_cons]
      omega

theorem tryLoads_events (loadOk : Nat → Bool) :
    ∀ (fuel i : Nat), ∀ e ∈ (tryLoads loadOk fuel i).2, isLoadAttempt e = true
  | 0, _ => by simp [tryLoads]
  | fuel + 1, i => by
    by_cases h : loadOk i = true
    · simp [tryLoads, h, isLoadAttempt]
    · rw [Bool.not_eq_true] at h
      intro e he
      simp only [tryLoads, h, Bool.false_eq_true, if_false, List.mem_cons] at he
      rcases he with he | he
      · rw [he]; rfl
      · exact tryLoads_events loadOk fuel (i + 1) e he

/-- C8: the native-object backend attempts the load at most 5 times (every
trace holds at most five load attempts); success on any of the first 5
attempts — including failures on attempts 1-4 with success on attempt 5 —
gives a successful call that proceeds to play the sound, and only when all 5
attempts fail does the call fail (with the load-failed `PlaysoundException`). -/
theorem c8_load_retries (cwd sound : List Nat) (loadOk : Nat → Bool) (duration : ℚ)
    (block : Bool) :
    ((∃ j, j < 5 ∧ loadOk j = true) →
      (playsoundOSX cwd sound true loadOk duration block).1 = .ok () ∧
      OsxEvent.soundPlay ∈ (playsoundOSX cwd sound true loadOk duration block).2) ∧
    ((∀ j, j < 5 → loadOk j = false) →
      (playsoundOSX cwd sound true loadOk duration block).1 =
        .error (.playsoundException
          ("Could not load sound with filename, although URL was good... " ++
            strOfCodes (handlePathOSX cwd sound)))) ∧
    (playsoundOSX cwd sound true loadOk duration block).2.countP isLoadAttempt ≤ 5 := by
  rcases ht : tryLoads loadOk 5 0 with ⟨r, tr⟩
  have htr_len : tr.length ≤ 5 := by
    have := tryLoads_length loadOk 5 0
    rw [ht] at this
    exact this
  refine ⟨?_, ?_, ?_⟩
  · rintro ⟨j, hj5, hj⟩
    cases r with
    | none =>
      exfalso
      have hall := (tryLoads_none_iff loadOk 5 0).1 (by rw [ht])
      have := hall j hj5
      rw [Nat.zero_add] at this
      rw [hj] at this
      exact absurd this (by simp)
    | some k =>
      simp only [playsoundOSX, Bool.true_eq_false, if_false, ht]
      cases block <;> simp
  · intro hall
    have hn : (tryLoads loadOk 5 0).1 = none :=
      (tryLoads_none_iff loadOk 5 0).2 (fun j hj => by
        rw [Nat.zero_add]; exact hall j hj)
    rw [ht] at hn
    simp only at hn
    subst hn
    simp [playsoundOSX, ht]
  · have hcount : tr.countP isLoadAttempt ≤ 5 :=
      le_trans (List.countP_le_length _) htr_len
    cases r with
    | none => simpa [playsoundOSX, ht] using hcount
    | some k =>
      simp only [playsoundOSX, Bool.true_eq_false, if_false, ht]
      cases block <;>
        simpa [List.countP_append, List.countP_cons, isLoadAttempt] using hcount

/-- C8 (witness): load fails on attempts 1-4 and succeeds on attempt 5; and
a loader failing all 5 attempts. -/
theorem c8_load_retries_witness :
    (playsoundOSX [] [47, 97] true (fun i => i == 4) 3 true).1 = .ok () ∧
    OsxEvent.soundPlay ∈ (playsoundOSX [] [47, 97] true (fun i => i == 4) 3 true).2 ∧
    (playsoundOSX [] [47, 97] true (fun _ => false) 3 true).1 =
      .error (.playsoundException
        ("Could not load sound with filename, although URL was good... " ++
          strOfCodes (handlePathOSX [] [47, 97]))) := by
  have h1 := (c8_load_retries [] [47, 97] (fun i => i == 4) 3 true).1 ⟨4, by omega, rfl⟩
  have h2 := ((c8_load_retries [] [47, 97] (fun _ => false) 3 true).2).1 (fun _ _ => rfl)
  exact ⟨h1.1, h1.2, h2⟩

/-- Shared evaluation: `_playsoundNix` on a non-HTTP(S) target that the
filesystem reports missing. -/
theorem playsoundNix_notfound (abspathF : String → String) (existsF : String → Bool)
    (p2u : String → String) (scr : Scr) (sound : String) (block : Bool)
    (hhttp : (sound.startsWith "http://" || sound.startsWith "https://") = false)
    (hex : existsF (abspathF sound) = false) :
    playsoundNix abspathF existsF p2u scr sound block =
      (.error (.playsoundException ("File not found: " ++ abspathF sound)),
        [.gstInit, .makePlaybin]) := by
  unfold playsoundNix
  rw [hhttp]
  simp [hex]

/-- Shared evaluation: `_playsoundAnotherPython` on a target that the
filesystem reports missing. -/
theorem playsoundAnotherPython_notfound (otherPython cwd sound playsoundPath : String)
    (block macOS : Bool) (existsF : String → Bool) (abspathF : String → String)
    (childExit : Int) (hex : existsF (abspathF sound) = false) :
    playsoundAnotherPython otherPython cwd sound block macOS existsF abspathF
        playsoundPath childExit =
      (.error (.playsoundException ("Cannot find a sound with filename: " ++ sound)),
        ([] : List DelegEvent)) := by
  simp [playsoundAnotherPython, hex]

/-- C3 (counterexample): a blocking Process-Delegation call on an existing
target whose child process exits with status 1 surfaces
`subprocess.CalledProcessError` — not an instance of the structured
`PlaysoundException` type — to the caller. -/
theorem c3_counterexample :
    (playsoundAnotherPython "/usr/bin/python3" "" "s.wav" true false (fun _ => true)
        (fun s => s) "playsound.py" 1).1 = .error (.calledProcessError 1) ∧
    isPlaysoundException (.calledProcessError 1) = false := ⟨rfl, rfl⟩

/-- C3 (amended): a blocking Process-Delegation call whose child exits
non-zero re-raises the captured `CalledProcessError` (carrying the exit
status) in the caller's context, an exception that is NOT an instance of
`PlaysoundException`; the same backend's missing-file failure, by contrast,
is raised as a `PlaysoundException`. -/
theorem c3_amended_delegated_failure (otherPython cwd sound : String) (macOS : Bool)
    (existsF : String → Bool) (abspathF : String → String) (playsoundPath : String)
    (childExit : Int)
    (hex : existsF (abspathF sound) = true) (hnz : childExit ≠ 0) :
    (playsoundAnotherPython otherPython cwd sound true macOS existsF abspathF
        playsoundPath childExit).1 = .error (.calledProcessError childExit) ∧
    isPlaysoundException (.calledProcessError childExit) = false ∧
    (∀ sound2, existsF (abspathF sound2) = false →
      (playsoundAnotherPython otherPython cwd sound2 true macOS existsF abspathF
          playsoundPath childExit).1 =
        .error (.playsoundException ("Cannot find a sound with filename: " ++ sound2)) ∧
      isPlaysoundException
        (.playsoundException ("Cannot find a sound with filename: " ++ sound2)) = true) := by
  refine ⟨?_, rfl, ?_⟩
  · simp [playsoundAnotherPython, hex, hnz]
  · intro sound2 hex2
    exact ⟨by simp [playsoundAnotherPython, hex2], rfl⟩

/-- C3 (witness for the amended theorem). -/
theorem c3_amended_delegated_failure_witness :
    (playsoundAnotherPython "/usr/bin/python3" "" "t.wav" true false (fun _ => true)
        (fun s => s) "playsound.py" 2).1 = .error (.calledProcessError 2) :=
  (c3_amended_delegated_failure "/usr/bin/python3" "" "t.wav" false (fun _ => true)
    (fun s => s) "playsound.py" 2 rfl (by decide)).1

/-- C4 (counterexample): on the streaming-pipeline backend, a request for a
nonexistent local file does fail with the file-not-found error, but only
after a pipeline element has been constructed: `Gst.init` and the
`playbin` construction precede the existence check. -/
theorem c4_counterexample :
    playsoundNix (fun s => "/abs/" ++ s) (fun _ => false) (fun s => s) .ASYNC "a.wav" true =
      (.error (.playsoundException "File not found: /abs/a.wav"),
        [.gstInit, .makePlaybin]) ∧
    NixEvent.makePlaybin ∈
      (playsoundNix (fun s => "/abs/" ++ s) (fun _ => false) (fun s => s) .ASYNC
        "a.wav" true).2 := by
  have h := playsoundNix_notfound (fun s => "/abs/" ++ s) (fun _ => false) (fun s => s)
    .ASYNC "a.wav" true (by decide) rfl
  refine ⟨h, ?_⟩
  rw [h]
  simp

/-- C4 (amended): for a nonexistent local (non-HTTP(S)) target, both fallback
backends fail with the file-not-found `PlaysoundException`: the
Process-Delegation fallback spawns no subprocess at all, and the
Streaming-Pipeline backend assigns no source URI and requests no state
transition — but the latter constructs the playbin element (after
initializing the library) before the existence check runs. -/
theorem c4_amended_filenotfound (abspathF : String → String) (existsF : String → Bool)
    (p2u : String → String) (scr : Scr) (sound : String) (block : Bool)
    (hhttp : (sound.startsWith "http://" || sound.startsWith "https://") = false)
    (hex : existsF (abspathF sound) = false) :
    playsoundNix abspathF existsF p2u scr sound block =
      (.error (.playsoundException ("File not found: " ++ abspathF sound)),
        [.gstInit, .makePlaybin]) ∧
    (∀ (otherPython cwd playsoundPath : String) (macOS block2 : Bool)
        (existsF2 : String → Bool) (abspathF2 : String → String) (childExit : Int),
      existsF2 (abspathF2 sound) = false →
      playsoundAnotherPython otherPython cwd sound block2 macOS existsF2 abspathF2
          playsoundPath childExit =
        (.error (.playsoundException ("Cannot find a sound with filename: " ++ sound)),
          ([] : List DelegEvent))) := by
  constructor
  · exact playsoundNix_notfound abspathF existsF p2u scr sound block hhttp hex
  · intro otherPython cwd playsoundPath macOS block2 existsF2 abspathF2 childExit hex2
    exact playsoundAnotherPython_notfound otherPython cwd sound playsoundPath block2
      macOS existsF2 abspathF2 childExit hex2

/-- C4 (witness for the amended theorem). -/
theorem c4_amended_filenotfound_witness :
    playsoundNix (fun s => "/abs/" ++ s) (fun _ => false) (fun s => s) .ASYNC "b.wav"
        false =
      (.error (.playsoundException "File not found: /abs/b.wav"),
        [.gstInit, .makePlaybin]) ∧
    playsoundAnotherPython "/usr/bin/python3" "" "b.wav" true false (fun _ => false)
        (fun s => s) "playsound.py" 0 =
      (.error (.playsoundException "Cannot find a sound with filename: b.wav"),
        ([] : List DelegEvent)) := by
  have h := c4_amended_filenotfound (fun s => "/abs/" ++ s) (fun _ => false)
    (fun s => s) .ASYNC "b.wav" false (by decide) rfl
  exact ⟨h.1, h.2 "/usr/bin/python3" "" "playsound.py" false true (fun _ => false)
    (fun s => s) 0 rfl⟩

/-! ## Lemmas about the path/URI normalizer -/

theorem replaceSpace_append (a b : List Nat) :
    replaceSpace (a ++ b) = replaceSpace a ++ replaceSpace b := by
  induction a with
  | nil => rfl
  | cons c rest ih => simp [replaceSpace, ih]

theorem percentDecode_cons_ne (c : Nat) (l : List Nat) (h : c ≠ 37) :
    percentDecode (c :: l) = c :: percentDecode l := by
  match l with
  | [] => rfl
  | [a] => rfl
  | a :: b :: t => simp [percentDecode, h]

theorem percentDecode_escape (h1 h2 : Nat) (l : List Nat)
    (hh : (isHexDigit h1 && isHexDigit h2) = true) :
    percentDecode (37 :: h1 :: h2 :: l) = (16 * hexVal h1 + hexVal h2) :: percentDecode l := by
  simp [percentDecode, hh]

theorem hexDigit_facts : ∀ n < 16, isHexDigit (hexDigit n) = true ∧
    hexVal (hexDigit n) = n ∧ hexDigit n ≠ 32 ∧ hexDigit n ≠ 37 ∧ hexDigit n < 128 := by
  decide

theorem quoteSafe_facts (b : Nat) (h : quoteSafe b = true) : b ≠ 32 ∧ b ≠ 37 ∧ b < 128 := by
  simp [quoteSafe] at h
  omega

theorem percentDecode_replaceSpace_noPct :
    ∀ l : List Nat, (∀ c ∈ l, c ≠ 37) → percentDecode (replaceSpace l) = l := by
  intro l
  induction l with
  | nil => intro _; rfl
  | cons c rest ih =>
    intro h
    have hrest := fun x hx => h x (List.mem_cons_of_mem _ hx)
    by_cases hc : c = 32
    · subst hc
      show percentDecode (37 :: 50 :: 48 :: replaceSpace rest) = 32 :: rest
      rw [percentDecode_escape 50 48 _ (by decide), ih hrest]
      rfl
    · show percentDecode ((if c = 32 then [37, 50, 48] else [c]) ++ replaceSpace rest) =
        c :: rest
      rw [if_neg hc]
      show percentDecode (c :: replaceSpace rest) = c :: rest
      rw [percentDecode_cons_ne c _ (h c (List.mem_cons_self c rest)), ih hrest]

theorem percentDecode_replaceSpace_quote :
    ∀ bs : List Nat, (∀ b ∈ bs, b < 256) →
      percentDecode (replaceSpace (pyQuote bs)) = bs := by
  intro bs
  induction bs with
  | nil => intro _; rfl
  | cons b rest ih =>
    intro h
    have hb : b < 256 := h b (List.mem_cons_self b rest)
    have hrest := fun x hx => h x (List.mem_cons_of_mem _ hx)
    by_cases hs : quoteSafe b = true
    · obtain ⟨h32, h37, _⟩ := quoteSafe_facts b hs
      show percentDecode (replaceSpace
        ((if quoteSafe b then [b] else [37, hexDigit (b / 16), hexDigit (b % 16)]) ++
          pyQuote rest)) = b :: rest
      rw [if_pos hs, replaceSpace_append]
      show percentDecode ((if b = 32 then [37, 50, 48] else [b]) ++ [] ++
        replaceSpace (pyQuote rest)) = b :: rest
      rw [if_neg h32]
      show percentDecode (b :: replaceSpace (pyQuote rest)) = b :: rest
      rw [percentDecode_cons_ne b _ h37, ih hrest]
    · have hd16 : b / 16 < 16 := Nat.div_lt_of_lt_mul (by omega)
      have hm16 : b % 16 < 16 := Nat.mod_lt _ (by norm_num)
      obtain ⟨hx1, hv1, ha1, hp1, _⟩ := hexDigit_facts (b / 16) hd16
      obtain ⟨hx2, hv2, ha2, hp2, _⟩ := hexDigit_facts (b % 16) hm16
      show percentDecode (replaceSpace
        ((if quoteSafe b then [b] else [37, hexDigit (b / 16), hexDigit (b % 16)]) ++
          pyQuote rest)) = b :: rest
      rw [if_neg hs, replaceSpace_append]
      show percentDecode ((if 37 = 32 then [37, 50, 48] else [37]) ++
        ((if hexDigit (b / 16) = 32 then [37, 50, 48] else [hexDigit (b / 16)]) ++
          ((if hexDigit (b % 16) = 32 then [37, 50, 48] else [hexDigit (b % 16)]) ++ [])) ++
        replaceSpace (pyQuote rest)) = b :: rest
      rw [if_neg (by decide : ¬ (37 : Nat) = 32), if_neg ha1, if_neg ha2]
      show percentDecode (37 :: hexDigit (b / 16) :: hexDigit (b % 16) ::
        replaceSpace (pyQuote rest)) = b :: rest
      rw [percentDecode_escape _ _ _ (by rw [hx1, hx2]; rfl), hv1, hv2, ih hrest,
        Nat.div_add_mod]

theorem utf8Bytes_lt_256 (n : Nat) (h : n < 1114112) : ∀ b ∈ utf8Bytes n, b < 256 := by
  intro b hb
  unfold utf8Bytes at hb
  split at hb
  · next h1 => simp at hb; omega
  · split at hb
    · next h2 =>
      have h64 : n % 64 < 64 := Nat.mod_lt _ (by norm_num)
      have hd : n / 64 < 32 := Nat.div_lt_of_lt_mul (by omega)
      simp [List.mem_cons] at hb
      rcases hb with hb | hb <;> omega
    · split at hb
      · next h3 =>
        have h64 : n % 64 < 64 := Nat.mod_lt _ (by norm_num)
        have h64b : n / 64 % 64 < 64 := Nat.mod_lt _ (by norm_num)
        have hd : n / 4096 < 16 := Nat.div_lt_of_lt_mul (by omega)
        simp [List.mem_cons] at hb
        rcases hb with hb | hb | hb <;> omega
      · have h64 : n % 64 < 64 := Nat.mod_lt _ (by norm_num)
        have h64b : n / 64 % 64 < 64 := Nat.mod_lt _ (by norm_num)
        have h64c : n / 4096 % 64 < 64 := Nat.mod_lt _ (by norm_num)
        have hd : n / 262144 < 5 := Nat.div_lt_of_lt_mul (by omega)
        simp [List.mem_cons] at hb
        rcases hb with hb | hb | hb | hb <;> omega

theorem utf8Encode_lt_256 (l : List Nat) (h : ∀ c ∈ l, c < 1114112) :
    ∀ b ∈ utf8Encode l, b < 256 := by
  intro b hb
  unfold utf8Encode at hb
  rw [List.mem_flatMap] at hb
  obtain ⟨c, hc, hbc⟩ := hb
  exact utf8Bytes_lt_256 c (h c hc) b hbc

theorem utf8Encode_ascii (l : List Nat) (h : ∀ c ∈ l, c < 128) : utf8Encode l = l := by
  induction l with
  | nil => rfl
  | cons c rest ih =>
    have hc : c < 128 := h c (List.mem_cons_self c rest)
    show utf8Bytes c ++ utf8Encode rest = c :: rest
    rw [utf8Bytes, if_pos hc, ih (fun x hx => h x (List.mem_cons_of_mem _ hx))]
    rfl

theorem replaceSpace_ascii (l : List Nat) (h : ∀ c ∈ l, c < 128) :
    ∀ c ∈ replaceSpace l, c < 128 := by
  induction l with
  | nil => simp [replaceSpace]
  | cons c rest ih =>
    intro x hx
    simp only [replaceSpace] at hx
    rw [List.mem_append] at hx
    rcases hx with hx | hx
    · split at hx
      · simp at hx
        rcases hx with hx | hx | hx <;> omega
      · simp at hx
        rw [hx]
        exact h c (List.mem_cons_self c rest)
    · exact ih (fun y hy => h y (List.mem_cons_of_mem _ hy)) x hx

theorem pyQuote_ascii (bs : List Nat) (h : ∀ b ∈ bs, b < 256) :
    ∀ c ∈ pyQuote bs, c < 128 := by
  induction bs with
  | nil => simp [pyQuote]
  | cons b rest ih =>
    intro x hx
    have hb : b < 256 := h b (List.mem_cons_self b rest)
    simp only [pyQuote] at hx
    rw [List.mem_append] at hx
    rcases hx with hx | hx
    · split at hx
      · next hs =>
        simp at hx
        rw [hx]
        exact (quoteSafe_facts b hs).2.2
      · have hd16 : b / 16 < 16 := Nat.div_lt_of_lt_mul (by omega)
        have hm16 : b % 16 < 16 := Nat.mod_lt _ (by norm_num)
        simp at hx
        rcases hx with hx | hx | hx
        · omega
        · rw [hx]
          exact (hexDigit_facts (b / 16) hd16).2.2.2.2
        · rw [hx]
          exact (hexDigit_facts (b % 16) hm16).2.2.2.2
    · exact ih (fun y hy => h y (List.mem_cons_of_mem _ hy)) x hx

theorem findScheme_fileuri (X : List Nat) :
    findScheme (fileSchemeCodes ++ X) = some ([102, 105, 108, 101], X) := by
  simp [findScheme, fileSchemeCodes]

/-- C9 (counterexample): two failures of the round-trip as stated.
First, the ASCII local path "/a %41" (contains a space, so it is in the
claim's scope) normalizes to "file:///a%20%41"; percent-decoding the portion
after the scheme separator yields "/a A", not the original path's UTF-8
bytes "/a %41" — the ASCII branch escapes spaces but leaves an existing '%'
unescaped, so decoding collapses "%41" to 'A'.  Second, the relative local
path "a b" with working directory "/h" normalizes to "file:///h/a%20b";
decoding yields "/h/a b" — the UTF-8 bytes of the cwd-resolved path, not of
the original input "a b". -/
theorem c9_counterexample :
    (findScheme [47, 97, 32, 37, 52, 49] = none ∧
      (32 : Nat) ∈ [47, 97, 32, 37, 52, 49] ∧
      findScheme (handlePathOSX [] [47, 97, 32, 37, 52, 49]) =
        some ([102, 105, 108, 101], [47, 97, 37, 50, 48, 37, 52, 49]) ∧
      percentDecode [47, 97, 37, 50, 48, 37, 52, 49] = [47, 97, 32, 65] ∧
      utf8Encode [47, 97, 32, 37, 52, 49] = [47, 97, 32, 37, 52, 49] ∧
      ([47, 97, 32, 65] : List Nat) ≠ [47, 97, 32, 37, 52, 49]) ∧
    (findScheme [97, 32, 98] = none ∧
      (32 : Nat) ∈ [97, 32, 98] ∧
      findScheme (handlePathOSX [47, 104] [97, 32, 98]) =
        some ([102, 105, 108, 101], [47, 104, 47, 97, 37, 50, 48, 98]) ∧
      percentDecode [47, 104, 47, 97, 37, 50, 48, 98] = [47, 104, 47, 97, 32, 98] ∧
      utf8Encode [97, 32, 98] = [97, 32, 98] ∧
      ([47, 104, 47, 97, 32, 98] : List Nat) ≠ [97, 32, 98]) := by
  decide

/-- C9 (amended): for every valid local path (no "://"), absolute or
relative, containing spaces or non-ASCII characters, the normalizer's output
is ASCII-only, and percent-decoding the portion after the scheme separator
yields the UTF-8 bytes of the resolved path — the input itself when
absolute, the cwd-prefixed path when relative — provided that a pure-ASCII
resolved path contains no percent character (an ASCII path containing '%'
followed by two hex digits does not round-trip). -/
theorem c9_amended_normalizer (cwd sound : List Nat)
    (hvalid : ∀ c ∈ resolvedPath cwd sound, c < 1114112)
    (hnouri : findScheme sound = none)
    (_hscope : 32 ∈ sound ∨ ¬ (∀ c ∈ sound, c < 128))
    (hpct : (∀ c ∈ resolvedPath cwd sound, c < 128) → 37 ∉ resolvedPath cwd sound) :
    (∀ c ∈ handlePathOSX cwd sound, c < 128) ∧
    ∃ p2, findScheme (handlePathOSX cwd sound) = some ([102, 105, 108, 101], p2) ∧
      percentDecode p2 = utf8Encode (resolvedPath cwd sound) := by
  have hpre : ∀ c ∈ fileSchemeCodes, c < 128 := by decide
  have hs : (if (findScheme sound).isSome then sound
      else fileSchemeCodes ++ (if sound.head? = some 47 then sound else cwd ++ 47 :: sound)) =
      fileSchemeCodes ++ resolvedPath cwd sound := by
    rw [hnouri]
    simp [resolvedPath]
  by_cases hasc : ∀ c ∈ resolvedPath cwd sound, c < 128
  · have hall : (fileSchemeCodes ++ resolvedPath cwd sound).all
        (fun c => decide (c < 128)) = true := by
      rw [List.all_append]
      refine Bool.and_eq_true_iff.mpr ⟨?_, ?_⟩ <;> rw [List.all_eq_true]
      · intro c hc
        simpa using hpre c hc
      · intro c hc
        simpa using hasc c hc
    have hout : handlePathOSX cwd sound =
        fileSchemeCodes ++ replaceSpace (resolvedPath cwd sound) := by
      unfold handlePathOSX
      rw [hs, if_pos hall, replaceSpace_append]
      rfl
    have hne37 : ∀ c ∈ resolvedPath cwd sound, c ≠ 37 := by
      intro c hc he
      exact hpct hasc (he ▸ hc)
    refine ⟨?_, replaceSpace (resolvedPath cwd sound), ?_, ?_⟩
    · intro c hc
      rw [hout, List.mem_append] at hc
      rcases hc with hc | hc
      · exact hpre c hc
      · exact replaceSpace_ascii _ hasc c hc
    · rw [hout]
      exact findScheme_fileuri _
    · rw [percentDecode_replaceSpace_noPct _ hne37, utf8Encode_ascii _ hasc]
  · have hall : (fileSchemeCodes ++ resolvedPath cwd sound).all
        (fun c => decide (c < 128)) = false := by
      rw [List.all_append]
      refine Bool.and_eq_false_iff.mpr (Or.inr ?_)
      rw [Bool.eq_false_iff]
      intro hcon
      rw [List.all_eq_true] at hcon
      exact hasc (fun c hc => by simpa using hcon c hc)
    have hbytes : ∀ b ∈ utf8Encode (resolvedPath cwd sound), b < 256 :=
      utf8Encode_lt_256 _ hvalid
    have hout : handlePathOSX cwd sound =
        fileSchemeCodes ++ replaceSpace (pyQuote (utf8Encode (resolvedPath cwd sound))) := by
      unfold handlePathOSX
      rw [hs, if_neg (by rw [hall]; exact Bool.false_ne_true), findScheme_fileuri]
      rfl
    refine ⟨?_, replaceSpace (pyQuote (utf8Encode (resolvedPath cwd sound))), ?_, ?_⟩
    · intro c hc
      rw [hout, List.mem_append] at hc
      rcases hc with hc | hc
      · exact hpre c hc
      · exact replaceSpace_ascii _ (pyQuote_ascii _ hbytes) c hc
    · rw [hout]
      exact findScheme_fileuri _
    · exact percentDecode_replaceSpace_quote _ hbytes

/-- C9 (witness for the amended theorem): the absolute path "/ä b" and the
relative path "a b" resolved against the working directory "/h". -/
theorem c9_amended_normalizer_witness :
    ((∀ c ∈ handlePathOSX [] [47, 228, 32, 98], c < 128) ∧
      ∃ p2, findScheme (handlePathOSX [] [47, 228, 32, 98]) =
          some ([102, 105, 108, 101], p2) ∧
        percentDecode p2 = utf8Encode (resolvedPath [] [47, 228, 32, 98])) ∧
    ((∀ c ∈ handlePathOSX [47, 104] [97, 32, 98], c < 128) ∧
      ∃ p2, findScheme (handlePathOSX [47, 104] [97, 32, 98]) =
          some ([102, 105, 108, 101], p2) ∧
        percentDecode p2 = utf8Encode (resolvedPath [47, 104] [97, 32, 98])) :=
  ⟨c9_amended_normalizer [] [47, 228, 32, 98] (by decide) (by decide)
      (Or.inl (by decide)) (fun h => absurd (h 228 (by decide)) (by decide)),
    c9_amended_normalizer [47, 104] [97, 32, 98] (by decide) (by decide)
      (Or.inl (by decide)) (fun _ => by decide)⟩
